import Mathlib

/-!
Verification of the device-protocol layer of the bike-lock TCP control
server (`bike_lock_controller.py`): the frame codec
(`_format_command` / `_parse_response`), the per-server state
(`connected_locks` / `lock_info`), command dispatch
(`unlock` / `lock` / `get_status` / `_send_command`), the message handler
(`_handle_lock_message`) and the per-connection read loop
(`_handle_lock_connection`).

Bytes are modelled as `List Char`, one character per byte (code points
0 to 255).  Python's `data.decode('ascii')` succeeds exactly when every
byte is below 128 and is then the identity on this representation, so the
bytes/text distinction collapses to an `allAscii` guard.  Exceptions are
modelled explicitly: `ValueError`s raised by the dispatch operations
become `Except.error`, and the `IndexError` / `ValueError` that
`_handle_lock_message` can raise become an `Option PyErr` component that
the read loop turns into session termination.
-/

/-- The ASCII whitespace characters removed by Python's `str.strip()`. -/
def pySpace (c : Char) : Bool :=
  c == ' ' || c == '\t' || c == '\n' || c == '\r' || c == Char.ofNat 11 || c == Char.ofNat 12

/-- Python `str.strip()` (ASCII inputs). -/
def pyStrip (cs : List Char) : List Char :=
  ((cs.dropWhile pySpace).reverse.dropWhile pySpace).reverse

/-- Python `str.rstrip('#')`. -/
def rstripHash (cs : List Char) : List Char :=
  (cs.reverse.dropWhile (fun c => c == '#')).reverse

/-- Python `str.split(',')`: every comma separates, empty pieces are kept. -/
def splitComma : List Char → List (List Char)
  | [] => [[]]
  | c :: cs =>
    if c = ',' then [] :: splitComma cs
    else
      match splitComma cs with
      | [] => [[c]]
      | g :: gs => (c :: g) :: gs

/-- Python `",".join(pieces)`. -/
def interJoin : List (List Char) → List Char
  | [] => []
  | [p] => p
  | p :: q :: ps => p ++ ',' :: interJoin (q :: ps)

/-- Python `str.startswith` on the character-list representation. -/
def leadMatch : List Char → List Char → Bool
  | [], _ => true
  | _ :: _, [] => false
  | p :: ps, c :: cs => p == c && leadMatch ps cs

/-- `BikeLockServer.CMD_HEADER`: header of outbound command frames. -/
def CMD_HEADER : List Char := "*CMDS".toList

/-- Header required of inbound response frames by `_parse_response`. -/
def RESP_HEADER : List Char := "*CMDR".toList

/-- `BikeLockServer.MANUFACTURER`. -/
def MANUFACTURER : List Char := "OM".toList

/-- `BikeLockServer.PREFIX_BYTES`: the two `0xFF` bytes prepended to every
outbound frame. -/
def PREFIX_BYTES : List Char := [Char.ofNat 255, Char.ofNat 255]

/-- Every byte is below 128, i.e. `decode('ascii')` / `encode('ascii')`
succeeds. -/
def allAscii (cs : List Char) : Bool := cs.all (fun c => decide (c.toNat < 128))

/-- The command-and-parameters tail of a frame: the parameter block is
appended only when the joined parameter string is nonempty, mirroring the
`if params_str:` test in `_format_command`. -/
def frameTail (cmd : List Char) (params : List (List Char)) : List Char :=
  if interJoin params = [] then cmd else cmd ++ ',' :: interJoin params

/-- The text of a frame before the trailing `#\n`:
`<hdr>,OM,<imei>,<ts>,<cmd>[,<p1>,<p2>,...]`. -/
def frameCore (hdr imei ts cmd : List Char) (params : List (List Char)) : List Char :=
  hdr ++ ',' :: (MANUFACTURER ++ ',' :: (imei ++ ',' :: (ts ++ ',' :: frameTail cmd params)))

/-- A complete frame text: core followed by `#` and newline. -/
def frameWith (hdr imei ts cmd : List Char) (params : List (List Char)) : List Char :=
  frameCore hdr imei ts cmd params ++ ['#', '\n']

/-- `BikeLockServer._format_command(imei, cmd, *params)`.  The wall-clock
timestamp that the Python code reads from `datetime.now()` is passed in as
`ts`.  The result is `none` when `cmd_str.encode('ascii')` would raise
(some character is not ASCII), otherwise the prefix bytes followed by the
frame text. -/
def format_command (imei cmd : List Char) (params : List (List Char)) (ts : List Char) :
    Option (List Char) :=
  if allAscii (frameWith CMD_HEADER imei ts cmd params) then
    some (PREFIX_BYTES ++ frameWith CMD_HEADER imei ts cmd params)
  else none

/-- The comma-separated fields of a received payload, computed exactly as
`_parse_response` computes them: strip whitespace, strip trailing `#`,
split on commas (`msg.rstrip('#').split(',')` with `msg = data.strip()`). -/
def fieldsOf (cs : List Char) : List (List Char) :=
  splitComma (rstripHash (pyStrip cs))

/-- `BikeLockServer._parse_response(data)`: returns the `(imei, cmd,
params)` triple, each component `none` exactly when the Python value is
`None`.  Any failure (non-ASCII input, missing `*CMDR` header, fewer than
5 comma-separated fields) yields `(none, none, none)`. -/
def parse_response (data : List Char) :
    Option (List Char) × Option (List Char) × Option (List (List Char)) :=
  if allAscii data then
    if leadMatch RESP_HEADER (pyStrip data) then
      if (fieldsOf data).length < 5 then (none, none, none)
      else (some ((fieldsOf data).getD 2 []), some ((fieldsOf data).getD 4 []),
        some ((fieldsOf data).drop 5))
    else (none, none, none)
  else (none, none, none)

/-- The numeric value of a nonempty all-digit string, `none` otherwise. -/
def digitsVal (cs : List Char) : Option Nat :=
  if cs ≠ [] ∧ cs.all Char.isDigit then
    some (cs.foldl (fun a c => a * 10 + (c.toNat - 48)) 0)
  else none

/-- Python `int(s)` on a string: optional surrounding whitespace, optional
sign, then at least one digit; anything else raises `ValueError`
(modelled as `none`). -/
def pyInt? (cs : List Char) : Option Int :=
  match pyStrip cs with
  | '+' :: rest => (digitsVal rest).map Int.ofNat
  | '-' :: rest => (digitsVal rest).map (fun n => -(n : Int))
  | t => (digitsVal t).map Int.ofNat

/-! ## Server state and operations -/

/-- A client socket.  `sendOk` says whether `sock.send` succeeds (a failed
send raises, which `_send_command` catches and turns into `False`);
`closed` is the idempotent closed flag set by `sock.close()`. -/
structure Socket where
  sendOk : Bool
  closed : Bool
deriving DecidableEq, Repr

/-- `socket.close()`: sets the closed flag; closing an already-closed
socket is a no-op and never raises. -/
def closeSock (k : Socket) : Socket := { k with closed := true }

/-- The mutable state of a `BikeLockServer`:
`connected_locks` (lock id to socket), `lock_info` (lock id to the stored
`{"imei": ...}` record, kept as the imei itself), plus two observation
logs: `classLog` records each Success/Failed classification the handler
logs for an `L0`/`L1` response, and `sent` records each frame actually
written to a socket, in order. -/
structure ServerState where
  connectedLocks : List (String × Socket)
  lockInfo : List (String × List Char)
  classLog : List (String × List Char × Bool)
  sent : List (String × List Char)
deriving DecidableEq, Repr

/-- Python dict lookup `m[k]` / `k in m` on an association list. -/
def alookup {β : Type} : List (String × β) → String → Option β
  | [], _ => none
  | (k', v) :: t, k => if k' = k then some v else alookup t k

/-- Python dict assignment `m[k] = v`: overwrite in place, append if the
key is new. -/
def aset {β : Type} : List (String × β) → String → β → List (String × β)
  | [], k, v => [(k, v)]
  | (k', v') :: t, k, v => if k' = k then (k, v) :: t else (k', v') :: aset t k v

/-- Python `del m[k]` (dict keys are unique, so dropping every entry with
the key is the same operation). -/
def aremove {β : Type} (m : List (String × β)) (k : String) : List (String × β) :=
  m.filter (fun e => !(e.1 == k))

/-- The exceptions `_handle_lock_message` can raise: `params[0]` on an
empty list (`IndexError`), `int()` on a non-integer string or unpacking
the wrong number of values (`ValueError`). -/
inductive PyErr
  | indexError
  | valueError
deriving DecidableEq, Repr

/-- The `ValueError`s raised by the dispatch operations, distinguished by
their message: `"Lock {id} not recognized"` from `unlock`/`lock`/
`get_status`, `"Lock {id} is not connected"` from `_send_command`; plus
the `UnicodeEncodeError` that `cmd_str.encode('ascii')` would raise on a
non-ASCII field. -/
inductive LockErr
  | notRecognized (id : String)
  | notConnected (id : String)
  | encodeFailed
deriving DecidableEq, Repr

/-- `BikeLockServer._send_command`: raises when the lock id is not in
`connected_locks`; otherwise returns `True` on a successful send (the
frame is appended to the `sent` log) and `False` when `sock.send`
raised. -/
def send_command (s : ServerState) (lockId : String) (b : List Char) :
    Except LockErr (ServerState × Bool) :=
  match alookup s.connectedLocks lockId with
  | none => .error (.notConnected lockId)
  | some k =>
    if k.sendOk && !k.closed then .ok ({ s with sent := s.sent ++ [(lockId, b)] }, true)
    else .ok (s, false)

/-- `BikeLockServer.unlock(lock_id, reset_time)`.  `frameTs` is the
`datetime.now()` wall-clock string used inside `_format_command`;
`unixTs` is the `str(int(time.time()))` second parameter. -/
def unlock (s : ServerState) (lockId : String) (resetTime : Bool)
    (frameTs unixTs : List Char) : Except LockErr (ServerState × Bool) :=
  match alookup s.lockInfo lockId with
  | none => .error (.notRecognized lockId)
  | some imei =>
    match format_command imei ("L0".toList)
        [if resetTime then "0".toList else "1".toList, "1234".toList, unixTs] frameTs with
    | none => .error .encodeFailed
    | some b => send_command s lockId b

/-- `BikeLockServer.lock(lock_id)`. -/
def lock (s : ServerState) (lockId : String) (frameTs : List Char) :
    Except LockErr (ServerState × Bool) :=
  match alookup s.lockInfo lockId with
  | none => .error (.notRecognized lockId)
  | some imei =>
    match format_command imei ("L1".toList) [] frameTs with
    | none => .error .encodeFailed
    | some b => send_command s lockId b

/-- `BikeLockServer.get_status(lock_id)`. -/
def get_status (s : ServerState) (lockId : String) (frameTs : List Char) :
    Except LockErr (ServerState × Bool) :=
  match alookup s.lockInfo lockId with
  | none => .error (.notRecognized lockId)
  | some imei =>
    match format_command imei ("S5".toList) [] frameTs with
    | none => .error .encodeFailed
    | some b => send_command s lockId b

/-- The `if`/`elif` chain of `_handle_lock_message` after the
`lock_info` update: yields the Success/Failed classification logged for
an `L0`/`L1` response (as `some (params[0] == "0")`) and the exception the
branch raises, if any.
* `Q0`: `int(params[0]) if params else 0` — `ValueError` when the first
  parameter is not an integer literal.
* `H0`: unpacking `params` into three names when `len(params) >= 3` —
  `ValueError` when there are more than three, and `int(voltage)` may
  raise on exactly three.
* `L0`/`L1`: `params[0]` — `IndexError` on an empty parameter list.
* `S5`: unpacking five names when `len(params) >= 5` — `ValueError` when
  there are more than five, and `int(voltage)` may raise on exactly
  five. -/
def branch_result (cmd : List Char) (params : List (List Char)) : Option Bool × Option PyErr :=
  if cmd = "Q0".toList then
    match params with
    | [] => (none, none)
    | p0 :: _ => (none, if (pyInt? p0).isSome then none else some .valueError)
  else if cmd = "H0".toList then
    (none,
      if params.length ≥ 3 then
        if params.length > 3 then some .valueError
        else if (pyInt? (params.getD 1 [])).isSome then none else some .valueError
      else none)
  else if cmd = "L0".toList ∨ cmd = "L1".toList then
    match params with
    | [] => (none, some .indexError)
    | p0 :: _ => (some (p0 == "0".toList), none)
  else if cmd = "S5".toList then
    (none,
      if params.length ≥ 5 then
        if params.length > 5 then some .valueError
        else if (pyInt? (params.getD 0 [])).isSome then none else some .valueError
      else none)
  else (none, none)

/-- `BikeLockServer._handle_lock_message(lock_id, data)`.  Returns the
state as mutated up to the point where the body returned or raised,
together with the raised exception if any.  A frame whose parse yields a
falsy imei (`None` or the empty string) is dropped; otherwise
`lock_info[lock_id] = {"imei": imei}` runs first, and then the command
dispatch chain. -/
def handle_lock_message (s : ServerState) (lockId : String) (data : List Char) :
    ServerState × Option PyErr :=
  match parse_response data with
  | (some imei, some cmd, some params) =>
    if imei = [] then (s, none)
    else
      let s1 := { s with lockInfo := aset s.lockInfo lockId imei }
      let r := branch_result cmd params
      (match r.1 with
       | some ok => { s1 with classLog := s1.classLog ++ [(lockId, cmd, ok)] }
       | none => s1,
       r.2)
  | _ => (s, none)

/-- The state `_handle_lock_message` leaves behind on the success path
(parse succeeded with a nonempty imei): the `lock_info` record is
overwritten, and an `L0`/`L1` classification, when the branch produced
one, is appended to the classification log. -/
def handled_state (s : ServerState) (lockId : String) (imei cmd : List Char)
    (params : List (List Char)) : ServerState :=
  match (branch_result cmd params).1 with
  | some ok => { s with
      lockInfo := aset s.lockInfo lockId imei
      classLog := s.classLog ++ [(lockId, cmd, ok)] }
  | none => { s with lockInfo := aset s.lockInfo lockId imei }

/-- One observable event on a session's socket: a successful
`recv` of some bytes, a zero-length read (peer closed), or an I/O
error raised by `recv`. -/
inductive RecvEvent
  | recv (data : List Char)
  | eof
  | ioErr
deriving DecidableEq, Repr

/-- The `finally` block of `_handle_lock_connection`: the lock id is
deleted from `connected_locks` (and the local socket closed); `lock_info`
is not touched. -/
def disconnect_cleanup (s : ServerState) (lockId : String) : ServerState :=
  { s with connectedLocks := aremove s.connectedLocks lockId }

/-- One iteration of the read loop of `_handle_lock_connection`, as seen
from the shared state: a zero-length read or an I/O error ends the loop
and runs the cleanup; received bytes go to `_handle_lock_message`, and an
exception escaping the handler is caught by the surrounding `except`,
ending the loop and running the cleanup.  The `Bool` says whether the
loop continues. -/
def session_step (s : ServerState) (lockId : String) (ev : RecvEvent) : ServerState × Bool :=
  match ev with
  | .eof => (disconnect_cleanup s lockId, false)
  | .ioErr => (disconnect_cleanup s lockId, false)
  | .recv data =>
    match handle_lock_message s lockId data with
    | (s', none) => (s', true)
    | (s', some _) => (disconnect_cleanup s' lockId, false)

/-- A text field that survives the codec unchanged: no separator comma,
no terminator `#`, ASCII only. -/
def validField (f : List Char) : Prop :=
  ',' ∉ f ∧ '#' ∉ f ∧ ∀ c ∈ f, c.toNat < 128

instance (f : List Char) : Decidable (validField f) := by
  unfold validField; infer_instance

/-! ## Concrete example data

One lock, identity `"L"`, with the imei of the spec's concrete scenario;
concrete frames exercising the handler's branches. -/

def imeiEx : List Char := "860123456789012".toList

def tsEx : List Char := "240101120000".toList

def utEx : List Char := "1700000000".toList

def sockEx : Socket := { sendOk := true, closed := false }

/-- A server with one connected lock `"L"` that has already been
identified (its `lock_info` record holds `imeiEx`). -/
def sEx : ServerState :=
  { connectedLocks := [("L", sockEx)], lockInfo := [("L", imeiEx)], classLog := [], sent := [] }

/-- A server with one connected lock `"L"` that has sent no frame yet. -/
def sNew : ServerState :=
  { connectedLocks := [("L", sockEx)], lockInfo := [], classLog := [], sent := [] }

/-- A `Q0` check-in frame with imei `AAA` and no parameters. -/
def frameQ0A : List Char := "*CMDR,OM,AAA,1,Q0#".toList

/-- A `Q0` check-in frame with imei `BBB` and no parameters. -/
def frameQ0B : List Char := "*CMDR,OM,BBB,1,Q0#".toList

/-- A well-formed `L0` response with an empty parameter list. -/
def frameL0Empty : List Char := "*CMDR,OM,860123456789012,240101120000,L0#".toList

/-- A well-formed `L0` response whose first parameter is `"1"` (the
device reporting a failed unlock). -/
def frameL0Fail : List Char := "*CMDR,OM,860123456789012,240101120001,L0,1#".toList

/-! ## List-level lemmas about the codec primitives -/

theorem dropWhile_all_neg {α : Type} {p : α → Bool} :
    ∀ {l : List α}, (∀ a ∈ l, p a = false) → l.dropWhile p = l
  | [], _ => rfl
  | a :: l, h => by
    have ha : p a = false := h a (by simp)
    simp [List.dropWhile_cons, ha]

theorem splitComma_cons (c : Char) (cs : List Char) :
    splitComma (c :: cs) =
      if c = ',' then [] :: splitComma cs
      else
        match splitComma cs with
        | [] => [[c]]
        | g :: gs => (c :: g) :: gs := rfl

theorem splitComma_ne_nil : ∀ xs : List Char, splitComma xs ≠ []
  | [] => by simp [splitComma]
  | c :: cs => by
    have := splitComma_ne_nil cs
    unfold splitComma
    by_cases hc : c = ',' <;> simp [hc]
    cases h : splitComma cs with
    | nil => exact absurd h this
    | cons g gs => simp

theorem splitComma_no_comma : ∀ {xs : List Char}, ',' ∉ xs → splitComma xs = [xs]
  | [], _ => rfl
  | c :: cs, h => by
    have hc : ¬ c = ',' := fun hh => h (hh ▸ List.mem_cons_self c cs)
    have ih : splitComma cs = [cs] := splitComma_no_comma (fun hm => h (List.mem_cons_of_mem _ hm))
    unfold splitComma
    simp [hc, ih]

theorem splitComma_append : ∀ (xs ys : List Char), ',' ∉ xs →
    splitComma (xs ++ ',' :: ys) = xs :: splitComma ys
  | [], ys, _ => by
    rw [List.nil_append, splitComma_cons, if_pos rfl]
  | c :: cs, ys, h => by
    have hc : ¬ c = ',' := fun hh => h (hh ▸ List.mem_cons_self c cs)
    have ih := splitComma_append cs ys (fun hm => h (List.mem_cons_of_mem _ hm))
    rw [List.cons_append, splitComma_cons, if_neg hc, ih]

theorem interJoin_eq_nil : ∀ {ps : List (List Char)}, interJoin ps = [] → ps = [] ∨ ps = [[]]
  | [], _ => Or.inl rfl
  | [p], h => by simp [interJoin] at h; simp [h]
  | p :: q :: ps, h => by simp [interJoin] at h

theorem splitComma_interJoin : ∀ (ps : List (List Char)), ps ≠ [] →
    (∀ p ∈ ps, ',' ∉ p) → splitComma (interJoin ps) = ps
  | [], h, _ => absurd rfl h
  | [p], _, hp => by
    simpa [interJoin] using splitComma_no_comma (hp p (by simp))
  | p :: q :: ps, _, hp => by
    have ih := splitComma_interJoin (q :: ps) (by simp)
      (fun r hr => hp r (List.mem_cons_of_mem _ hr))
    simp only [interJoin]
    rw [splitComma_append p _ (hp p (by simp)), ih]

theorem mem_interJoin : ∀ (ps : List (List Char)) {c : Char}, c ∈ interJoin ps →
    c = ',' ∨ ∃ p ∈ ps, c ∈ p
  | [], _, h => by simp [interJoin] at h
  | [p], c, h => by
    simp only [interJoin] at h
    exact Or.inr ⟨p, by simp, h⟩
  | p :: q :: ps, c, h => by
    simp only [interJoin, List.mem_append, List.mem_cons] at h
    rcases h with h | h | h
    · exact Or.inr ⟨p, by simp, h⟩
    · exact Or.inl h
    · rcases mem_interJoin (q :: ps) h with h' | ⟨r, hr, hc⟩
      · exact Or.inl h'
      · exact Or.inr ⟨r, List.mem_cons_of_mem _ hr, hc⟩

theorem pyStrip_frame {c : Char} (t : List Char) (hc : pySpace c = false) :
    pyStrip ((c :: t) ++ ['#', '\n']) = (c :: t) ++ ['#'] := by
  have e1 : pySpace '\n' = true := by decide
  have e2 : pySpace '#' = false := by decide
  unfold pyStrip
  rw [List.cons_append, List.dropWhile_cons]
  simp only [hc, Bool.false_eq_true, if_false]
  rw [← List.cons_append, List.reverse_append]
  have e3 : (['#', '\n'] : List Char).reverse = ['\n', '#'] := rfl
  rw [e3, List.cons_append, List.dropWhile_cons, e1, if_pos rfl,
    List.cons_append, List.nil_append, List.dropWhile_cons, e2]
  simp only [Bool.false_eq_true, if_false]
  rw [show ('#' :: (c :: t).reverse : List Char) = ['#'] ++ (c :: t).reverse from rfl,
    List.reverse_append, List.reverse_reverse]
  rfl

theorem rstripHash_close {xs : List Char} (h : '#' ∉ xs) :
    rstripHash (xs ++ ['#']) = xs := by
  unfold rstripHash
  rw [List.reverse_append]
  show ((('#' : Char) :: xs.reverse).dropWhile (fun c => c == '#')).reverse = xs
  rw [List.dropWhile_cons]
  norm_num
  rw [dropWhile_all_neg (fun a ha => by
      have : a ∈ xs := List.mem_reverse.mp ha
      have : ¬ a = '#' := fun hh => h (hh ▸ this)
      simpa using this),
    List.reverse_reverse]

theorem leadMatch_append : ∀ (pre rest : List Char), leadMatch pre (pre ++ rest) = true
  | [], _ => rfl
  | p :: ps, rest => by
    have ih := leadMatch_append ps rest
    rw [List.cons_append]
    show (p == p && leadMatch ps (ps ++ rest)) = true
    rw [ih]
    simp

/-! ## Frame structure lemmas -/

theorem mem_frameTail {c : Char} {cmd : List Char} {params : List (List Char)}
    (h : c ∈ frameTail cmd params) :
    c ∈ cmd ∨ c = ',' ∨ ∃ p ∈ params, c ∈ p := by
  unfold frameTail at h
  by_cases hj : interJoin params = []
  · rw [if_pos hj] at h
    exact Or.inl h
  · rw [if_neg hj] at h
    rcases List.mem_append.mp h with h | h
    · exact Or.inl h
    · rcases List.mem_cons.mp h with h | h
      · exact Or.inr (Or.inl h)
      · rcases mem_interJoin params h with h | h
        · exact Or.inr (Or.inl h)
        · exact Or.inr (Or.inr h)

theorem mem_frameCore {c : Char} {hdr imei ts cmd : List Char} {params : List (List Char)}
    (h : c ∈ frameCore hdr imei ts cmd params) :
    c ∈ hdr ∨ c ∈ MANUFACTURER ∨ c ∈ imei ∨ c ∈ ts ∨ c ∈ cmd ∨ c = ',' ∨
      ∃ p ∈ params, c ∈ p := by
  unfold frameCore at h
  simp only [List.mem_append, List.mem_cons] at h
  rcases h with h | h | h | h | h | h | h | h | h
  · exact Or.inl h
  · exact Or.inr (Or.inr (Or.inr (Or.inr (Or.inr (Or.inl h)))))
  · exact Or.inr (Or.inl h)
  · exact Or.inr (Or.inr (Or.inr (Or.inr (Or.inr (Or.inl h)))))
  · exact Or.inr (Or.inr (Or.inl h))
  · exact Or.inr (Or.inr (Or.inr (Or.inr (Or.inr (Or.inl h)))))
  · exact Or.inr (Or.inr (Or.inr (Or.inl h)))
  · exact Or.inr (Or.inr (Or.inr (Or.inr (Or.inr (Or.inl h)))))
  · rcases mem_frameTail h with h | h | h
    · exact Or.inr (Or.inr (Or.inr (Or.inr (Or.inl h))))
    · exact Or.inr (Or.inr (Or.inr (Or.inr (Or.inr (Or.inl h)))))
    · exact Or.inr (Or.inr (Or.inr (Or.inr (Or.inr (Or.inr h)))))

theorem allAscii_iff {cs : List Char} : allAscii cs = true ↔ ∀ c ∈ cs, c.toNat < 128 := by
  simp [allAscii, List.all_eq_true]

theorem allAscii_frameWith {hdr imei ts cmd : List Char} {params : List (List Char)}
    (hh : hdr = CMD_HEADER ∨ hdr = RESP_HEADER)
    (hi : ∀ c ∈ imei, c.toNat < 128) (ht : ∀ c ∈ ts, c.toNat < 128)
    (hc : ∀ c ∈ cmd, c.toNat < 128) (hp : ∀ p ∈ params, ∀ c ∈ p, c.toNat < 128) :
    allAscii (frameWith hdr imei ts cmd params) = true := by
  rw [allAscii_iff]
  intro c hmem
  unfold frameWith at hmem
  rw [List.mem_append] at hmem
  have hHdr : ∀ x ∈ CMD_HEADER, x.toNat < 128 := by decide
  have hRsp : ∀ x ∈ RESP_HEADER, x.toNat < 128 := by decide
  have hMan : ∀ x ∈ MANUFACTURER, x.toNat < 128 := by decide
  rcases hmem with hmem | hmem
  · rcases mem_frameCore hmem with h | h | h | h | h | h | ⟨p, hp', h⟩
    · rcases hh with rfl | rfl
      · exact hHdr c h
      · exact hRsp c h
    · exact hMan c h
    · exact hi c h
    · exact ht c h
    · exact hc c h
    · subst h; decide
    · exact hp p hp' c h
  · have : c = '#' ∨ c = '\n' := by simpa using hmem
    rcases this with rfl | rfl <;> decide

theorem fieldsOf_frameWith {hdr imei ts cmd : List Char} {params : List (List Char)}
    (hh : hdr = CMD_HEADER ∨ hdr = RESP_HEADER)
    (hi : ',' ∉ imei ∧ '#' ∉ imei) (ht : ',' ∉ ts ∧ '#' ∉ ts)
    (hc : ',' ∉ cmd ∧ '#' ∉ cmd) (hp : ∀ p ∈ params, ',' ∉ p ∧ '#' ∉ p)
    (hpp : params ≠ [[]]) :
    fieldsOf (frameWith hdr imei ts cmd params) =
      hdr :: MANUFACTURER :: imei :: ts :: cmd :: params := by
  have hstar : ∃ t, frameCore hdr imei ts cmd params = '*' :: t := by
    rcases hh with rfl | rfl <;> exact ⟨_, rfl⟩
  rcases hstar with ⟨t, hcore⟩
  have hnohash : '#' ∉ frameCore hdr imei ts cmd params := by
    intro hmem
    rcases mem_frameCore hmem with h | h | h | h | h | h | ⟨p, hp', h⟩
    · rcases hh with rfl | rfl
      · exact absurd h (by decide)
      · exact absurd h (by decide)
    · exact absurd h (by decide)
    · exact hi.2 h
    · exact ht.2 h
    · exact hc.2 h
    · exact absurd h (by decide)
    · exact (hp p hp').2 h
  have hstrip : pyStrip (frameWith hdr imei ts cmd params) =
      frameCore hdr imei ts cmd params ++ ['#'] := by
    unfold frameWith
    rw [hcore]
    exact pyStrip_frame t (by decide)
  have hrstrip : rstripHash (frameCore hdr imei ts cmd params ++ ['#']) =
      frameCore hdr imei ts cmd params := rstripHash_close hnohash
  unfold fieldsOf
  rw [hstrip, hrstrip]
  unfold frameCore
  have hmanc : ',' ∉ MANUFACTURER := by decide
  have hhc : ',' ∉ hdr := by rcases hh with rfl | rfl <;> decide
  rw [splitComma_append _ _ hhc, splitComma_append _ _ hmanc, splitComma_append _ _ hi.1,
    splitComma_append _ _ ht.1]
  unfold frameTail
  by_cases hj : interJoin params = []
  · have hparams : params = [] := by
      rcases interJoin_eq_nil hj with h | h
      · exact h
      · exact absurd h hpp
    rw [if_pos hj, splitComma_no_comma hc.1, hparams]
  · have hpn : params ≠ [] := by rintro rfl; exact hj rfl
    rw [if_neg hj, splitComma_append _ _ hc.1,
      splitComma_interJoin params hpn (fun p hp' => (hp p hp').1)]

theorem pyStrip_frameWith {hdr imei ts cmd : List Char} {params : List (List Char)}
    (hh : hdr = CMD_HEADER ∨ hdr = RESP_HEADER) :
    pyStrip (frameWith hdr imei ts cmd params) =
      frameCore hdr imei ts cmd params ++ ['#'] := by
  have hstar : ∃ t, frameCore hdr imei ts cmd params = '*' :: t := by
    rcases hh with rfl | rfl <;> exact ⟨_, rfl⟩
  rcases hstar with ⟨t, hcore⟩
  unfold frameWith
  rw [hcore]
  exact pyStrip_frame t (by decide)

theorem leadMatch_frameCore {hdr imei ts cmd : List Char} {params : List (List Char)} :
    leadMatch hdr (frameCore hdr imei ts cmd params ++ ['#']) = true := by
  unfold frameCore
  rw [List.append_assoc]
  exact leadMatch_append hdr _

/-- Decoding an inbound frame whose fields are valid recovers the imei,
command code and parameter list exactly. -/
theorem parse_frameWith_cmdr (imei ts cmd : List Char) (params : List (List Char))
    (hi : validField imei) (ht : validField ts) (hc : validField cmd)
    (hp : ∀ p ∈ params, validField p) (hpp : params ≠ [[]]) :
    parse_response (frameWith RESP_HEADER imei ts cmd params) =
      (some imei, some cmd, some params) := by
  have hascii : allAscii (frameWith RESP_HEADER imei ts cmd params) = true :=
    allAscii_frameWith (Or.inr rfl) hi.2.2 ht.2.2 hc.2.2 (fun p h => (hp p h).2.2)
  have hstrip := @pyStrip_frameWith RESP_HEADER imei ts cmd params (Or.inr rfl)
  have hfields : fieldsOf (frameWith RESP_HEADER imei ts cmd params) =
      RESP_HEADER :: MANUFACTURER :: imei :: ts :: cmd :: params :=
    fieldsOf_frameWith (Or.inr rfl) ⟨hi.1, hi.2.1⟩ ⟨ht.1, ht.2.1⟩ ⟨hc.1, hc.2.1⟩
      (fun p h => ⟨(hp p h).1, (hp p h).2.1⟩) hpp
  have hlead : leadMatch RESP_HEADER (pyStrip (frameWith RESP_HEADER imei ts cmd params)) =
      true := by
    rw [hstrip]; exact leadMatch_frameCore
  unfold parse_response
  rw [hascii, hlead, hfields]
  simp [List.getD]

/-! ## Association-list lemmas -/

theorem alookup_aset_self {β : Type} (m : List (String × β)) (k : String) (v : β) :
    alookup (aset m k v) k = some v := by
  induction m with
  | nil => simp [aset, alookup]
  | cons e t ih =>
    rcases e with ⟨k', v'⟩
    by_cases h : k' = k
    · subst h; simp [aset, alookup]
    · simp [aset, alookup, h, ih]

theorem alookup_aset_ne {β : Type} (m : List (String × β)) (k k' : String) (v : β)
    (h : k' ≠ k) : alookup (aset m k v) k' = alookup m k' := by
  induction m with
  | nil => simp [aset, alookup, Ne.symm h]
  | cons e t ih =>
    rcases e with ⟨k'', v''⟩
    by_cases hk : k'' = k
    · subst hk
      simp only [aset, if_pos rfl, alookup]
      rw [if_neg (fun hh => h hh.symm), if_neg (fun hh => h hh.symm)]
    · simp only [aset, if_neg hk, alookup]
      by_cases hq : k'' = k'
      · rw [if_pos hq, if_pos hq]
      · rw [if_neg hq, if_neg hq, ih]

theorem alookup_aset_isSome {β : Type} (m : List (String × β)) (k k' : String) (v : β)
    (h : (alookup m k').isSome = true) : (alookup (aset m k v) k').isSome = true := by
  by_cases hk : k' = k
  · subst hk; rw [alookup_aset_self]; rfl
  · rw [alookup_aset_ne m k k' v hk]; exact h

theorem aset_aset {β : Type} (m : List (String × β)) (k : String) (v w : β) :
    aset (aset m k v) k w = aset m k w := by
  induction m with
  | nil => simp [aset]
  | cons e t ih =>
    rcases e with ⟨k', v'⟩
    by_cases h : k' = k
    · subst h; simp [aset]
    · simp [aset, h, ih]

theorem alookup_aremove_self {β : Type} (m : List (String × β)) (k : String) :
    alookup (aremove m k) k = none := by
  induction m with
  | nil => rfl
  | cons e t ih =>
    rcases e with ⟨k', v'⟩
    unfold aremove at ih ⊢
    rw [List.filter_cons]
    by_cases h : k' = k
    · subst h; simpa using ih
    · have : (!((k', v').1 == k)) = true := by simpa using h
      rw [if_pos this]
      simpa [alookup, h] using ih

/-! ## Shape lemmas for the message handler -/

theorem parse_shape (d : List Char) :
    parse_response d = (none, none, none) ∨
      ∃ i c p, parse_response d = (some i, some c, some p) := by
  unfold parse_response
  split_ifs <;> simp

theorem handle_cases (s : ServerState) (id : String) (d : List Char) :
    (handle_lock_message s id d = (s, none) ∧
      (parse_response d = (none, none, none) ∨ (parse_response d).1 = some [])) ∨
    ∃ i c p, parse_response d = (some i, some c, some p) ∧ i ≠ [] ∧
      handle_lock_message s id d = (handled_state s id i c p, (branch_result c p).2) := by
  rcases parse_shape d with h | ⟨i, c, p, h⟩
  · left
    refine ⟨?_, Or.inl h⟩
    unfold handle_lock_message
    rw [h]
  · by_cases hi : i = []
    · subst hi
      left
      refine ⟨?_, Or.inr (by rw [h])⟩
      unfold handle_lock_message
      rw [h]
      simp
    · right
      refine ⟨i, c, p, h, hi, ?_⟩
      unfold handle_lock_message
      rw [h]
      simp only [if_neg hi]
      unfold handled_state
      cases (branch_result c p).1 <;> rfl

theorem handled_state_connectedLocks (s : ServerState) (id : String) (i c : List Char)
    (p : List (List Char)) : (handled_state s id i c p).connectedLocks = s.connectedLocks := by
  unfold handled_state
  cases (branch_result c p).1 <;> rfl

theorem handled_state_sent (s : ServerState) (id : String) (i c : List Char)
    (p : List (List Char)) : (handled_state s id i c p).sent = s.sent := by
  unfold handled_state
  cases (branch_result c p).1 <;> rfl

theorem handled_state_lockInfo (s : ServerState) (id : String) (i c : List Char)
    (p : List (List Char)) : (handled_state s id i c p).lockInfo = aset s.lockInfo id i := by
  unfold handled_state
  cases (branch_result c p).1 <;> rfl

theorem handle_connectedLocks (s : ServerState) (id : String) (d : List Char) :
    ((handle_lock_message s id d).1).connectedLocks = s.connectedLocks := by
  rcases handle_cases s id d with ⟨h, _⟩ | ⟨i, c, p, _, _, h⟩
  · rw [h]
  · rw [h]
    exact handled_state_connectedLocks s id i c p

theorem handle_sent (s : ServerState) (id : String) (d : List Char) :
    ((handle_lock_message s id d).1).sent = s.sent := by
  rcases handle_cases s id d with ⟨h, _⟩ | ⟨i, c, p, _, _, h⟩
  · rw [h]
  · rw [h]
    exact handled_state_sent s id i c p

theorem handle_lockInfo_cases (s : ServerState) (id : String) (d : List Char) :
    ((handle_lock_message s id d).1).lockInfo = s.lockInfo ∨
      ∃ i, i ≠ [] ∧ ((handle_lock_message s id d).1).lockInfo = aset s.lockInfo id i := by
  rcases handle_cases s id d with ⟨h, _⟩ | ⟨i, c, p, _, hi, h⟩
  · left; rw [h]
  · right
    refine ⟨i, hi, ?_⟩
    rw [h]
    exact handled_state_lockInfo s id i c p

theorem handle_lockInfo_of_parse (s : ServerState) (id : String) (d : List Char)
    (i c : List Char) (p : List (List Char))
    (hparse : parse_response d = (some i, some c, some p)) (hi : i ≠ []) :
    ((handle_lock_message s id d).1).lockInfo = aset s.lockInfo id i := by
  rcases handle_cases s id d with ⟨_, hfail⟩ | ⟨i', c', p', h', hi', h⟩
  · rcases hfail with hfail | hfail
    · rw [hparse] at hfail
      simp at hfail
    · rw [hparse] at hfail
      simp at hfail
      exact absurd hfail hi
  · rw [hparse] at h'
    have hii : i' = i := by
      have := congrArg (fun q => q.1) h'
      simpa using this.symm
    subst hii
    rw [h]
    exact handled_state_lockInfo s id i' c' p'

/-! ## Dispatch-operation lemmas -/

theorem format_command_some (imei cmd : List Char) (params : List (List Char)) (ts : List Char)
    (hi : ∀ c ∈ imei, c.toNat < 128) (ht : ∀ c ∈ ts, c.toNat < 128)
    (hc : ∀ c ∈ cmd, c.toNat < 128) (hp : ∀ p ∈ params, ∀ c ∈ p, c.toNat < 128) :
    format_command imei cmd params ts =
      some (PREFIX_BYTES ++ frameWith CMD_HEADER imei ts cmd params) := by
  unfold format_command
  rw [allAscii_frameWith (Or.inl rfl) hi ht hc hp]
  simp

theorem send_command_ok (s : ServerState) (id : String) (b : List Char) (k : Socket)
    (hconn : alookup s.connectedLocks id = some k)
    (hk : k.sendOk = true) (hc : k.closed = false) :
    send_command s id b = .ok ({ s with sent := s.sent ++ [(id, b)] }, true) := by
  unfold send_command
  rw [hconn]
  simp [hk, hc]

theorem send_command_not_connected (s : ServerState) (id : String) (b : List Char)
    (h : alookup s.connectedLocks id = none) :
    send_command s id b = .error (.notConnected id) := by
  unfold send_command
  rw [h]

theorem unlock_eq (s : ServerState) (id : String) (imei ft ut : List Char) (rt : Bool)
    (hinfo : alookup s.lockInfo id = some imei)
    (hia : ∀ c ∈ imei, c.toNat < 128) (hfa : ∀ c ∈ ft, c.toNat < 128)
    (hua : ∀ c ∈ ut, c.toNat < 128) :
    unlock s id rt ft ut = send_command s id (PREFIX_BYTES ++
      frameWith CMD_HEADER imei ft ("L0".toList)
        [if rt then "0".toList else "1".toList, "1234".toList, ut]) := by
  have hp : ∀ p ∈ [if rt then "0".toList else "1".toList, "1234".toList, ut],
      ∀ c ∈ p, c.toNat < 128 := by
    intro p hp'
    have hmem : p = (if rt then "0".toList else "1".toList) ∨ p = "1234".toList ∨ p = ut := by
      simpa using hp'
    rcases hmem with rfl | rfl | rfl
    · cases rt <;> decide
    · decide
    · exact hua
  unfold unlock
  simp only [hinfo, format_command_some imei ("L0".toList)
    [if rt then "0".toList else "1".toList, "1234".toList, ut] ft hia hfa (by decide) hp]

theorem lock_eq (s : ServerState) (id : String) (imei ft : List Char)
    (hinfo : alookup s.lockInfo id = some imei)
    (hia : ∀ c ∈ imei, c.toNat < 128) (hfa : ∀ c ∈ ft, c.toNat < 128) :
    lock s id ft = send_command s id (PREFIX_BYTES ++
      frameWith CMD_HEADER imei ft ("L1".toList) []) := by
  unfold lock
  simp only [hinfo, format_command_some imei ("L1".toList) [] ft hia hfa (by decide) (by simp)]

theorem get_status_eq (s : ServerState) (id : String) (imei ft : List Char)
    (hinfo : alookup s.lockInfo id = some imei)
    (hia : ∀ c ∈ imei, c.toNat < 128) (hfa : ∀ c ∈ ft, c.toNat < 128) :
    get_status s id ft = send_command s id (PREFIX_BYTES ++
      frameWith CMD_HEADER imei ft ("S5".toList) []) := by
  unfold get_status
  simp only [hinfo, format_command_some imei ("S5".toList) [] ft hia hfa (by decide) (by simp)]

theorem branch_result_L0 (p0 : List Char) (ps : List (List Char)) :
    branch_result ("L0".toList) (p0 :: ps) = (some (p0 == "0".toList), none) := by
  unfold branch_result
  rw [if_neg (by decide), if_neg (by decide), if_pos (by decide)]

theorem handle_eq_of_parse (s : ServerState) (id : String) (d : List Char)
    (i c : List Char) (p : List (List Char))
    (hparse : parse_response d = (some i, some c, some p)) (hi : i ≠ []) :
    handle_lock_message s id d = (handled_state s id i c p, (branch_result c p).2) := by
  unfold handle_lock_message
  rw [hparse]
  simp only [if_neg hi]
  unfold handled_state
  cases (branch_result c p).1 <;> rfl

theorem session_step_lockInfo_cases (s : ServerState) (id : String) (ev : RecvEvent) :
    ((session_step s id ev).1).lockInfo = s.lockInfo ∨
      ∃ j, j ≠ [] ∧ ((session_step s id ev).1).lockInfo = aset s.lockInfo id j := by
  cases ev with
  | eof => exact Or.inl rfl
  | ioErr => exact Or.inl rfl
  | recv d =>
    have hcases := handle_lockInfo_cases s id d
    rcases hh : handle_lock_message s id d with ⟨s', e⟩
    rw [hh] at hcases
    cases e with
    | none =>
      simp only [session_step, hh]
      exact hcases
    | some pe =>
      simp only [session_step, hh]
      exact hcases

/-! ## Claims -/

/-- **C1, counterexample**: decoding the bytes produced by `_format_command`
(after dropping the two prefix bytes) does *not* round-trip: the encoder
emits the outbound header `*CMDS` while `_parse_response` requires the
inbound header `*CMDR`, so the decode of an encoded frame yields the
all-`None` failure triple instead of the original imei, code and
parameters. -/
theorem c1_encode_decode_counterexample :
    (format_command imeiEx ("L0".toList) ["0".toList] tsEx).map
      (fun b => parse_response (b.drop 2)) = some (none, none, none) := by
  rfl

/-- **C1, amended**: `decode(encode(...))` fails only because of the header
direction: the encoder produces the `*CMDS`-headed frame, and decoding the
same frame with its header replaced by the inbound `*CMDR` (exactly what a
device response with these fields looks like) recovers the imei, code and
parameter list, with the timestamp present as field 3. -/
theorem c1_roundtrip_with_resp_header (imei ts cmd : List Char) (params : List (List Char))
    (hi : validField imei) (ht : validField ts) (hc : validField cmd)
    (hp : ∀ p ∈ params, validField p) (hpp : params ≠ [[]]) :
    format_command imei cmd params ts =
      some (PREFIX_BYTES ++ frameWith CMD_HEADER imei ts cmd params)
    ∧ parse_response (frameWith RESP_HEADER imei ts cmd params) =
      (some imei, some cmd, some params)
    ∧ (fieldsOf (frameWith RESP_HEADER imei ts cmd params)).getD 3 [] = ts := by
  refine ⟨?_, parse_frameWith_cmdr imei ts cmd params hi ht hc hp hpp, ?_⟩
  · exact format_command_some imei cmd params ts hi.2.2 ht.2.2 hc.2.2
      (fun p h => (hp p h).2.2)
  · rw [fieldsOf_frameWith (Or.inr rfl) ⟨hi.1, hi.2.1⟩ ⟨ht.1, ht.2.1⟩ ⟨hc.1, hc.2.1⟩
      (fun p h => ⟨(hp p h).1, (hp p h).2.1⟩) hpp]
    rfl

/-- Witness for the amended C1 at the spec's concrete scenario values. -/
theorem c1_roundtrip_with_resp_header_witness :
    format_command imeiEx ("L0".toList) ["0".toList] tsEx =
      some (PREFIX_BYTES ++ frameWith CMD_HEADER imeiEx tsEx ("L0".toList) ["0".toList])
    ∧ parse_response (frameWith RESP_HEADER imeiEx tsEx ("L0".toList) ["0".toList]) =
      (some imeiEx, some ("L0".toList), some ["0".toList])
    ∧ (fieldsOf (frameWith RESP_HEADER imeiEx tsEx ("L0".toList) ["0".toList])).getD 3 [] =
      tsEx :=
  c1_roundtrip_with_resp_header imeiEx tsEx ("L0".toList) ["0".toList]
    (by decide) (by decide) (by decide) (by decide) (by decide)

/-- **C5**: an input whose stripped payload does not start with `*CMDR`, or
whose field count after stripping the trailing `#` is below 5, decodes to
the all-`None` triple — no component of the `(imei, cmd, params)` result
is populated. -/
theorem c5_malformed_rejected (data : List Char)
    (h : leadMatch RESP_HEADER (pyStrip data) = false ∨ (fieldsOf data).length < 5) :
    parse_response data = (none, none, none) := by
  unfold parse_response
  split_ifs with h1 h2 h3
  · rfl
  · rcases h with h | h
    · rw [h] at h2
      simp at h2
    · exact absurd h h3
  · rfl
  · rfl

/-- Witness for C5: a frame with the right header but only four fields. -/
theorem c5_malformed_rejected_witness :
    parse_response ("*CMDR,OM,860123456789012,240101120000#".toList) = (none, none, none) :=
  c5_malformed_rejected ("*CMDR,OM,860123456789012,240101120000#".toList)
    (Or.inr (by decide))

/-- **C9**: a frame that decodes successfully (imei, code `L0`, empty
parameter list) makes `_handle_lock_message` raise an uncaught
`IndexError` at `params[0]`; the exception escapes to
`_handle_lock_connection`'s `except` clause, the read loop ends, and the
`finally` block closes the connection (the lock is deleted from
`connected_locks`) although no transport I/O error occurred. -/
theorem c9_valid_frame_crashes_session :
    parse_response frameL0Empty = (some imeiEx, some ("L0".toList), some [])
    ∧ (handle_lock_message sNew "L" frameL0Empty).2 = some PyErr.indexError
    ∧ session_step sNew "L" (RecvEvent.recv frameL0Empty) =
        ({ connectedLocks := [], lockInfo := [("L", imeiEx)], classLog := [], sent := [] },
          false) := by
  refine ⟨rfl, rfl, rfl⟩

/-- **C2, counterexample**: the `unlock` call does not stay pending until
the device answers — it already returned `true` (frame sent) at send time.
When the peer's matching `L0` response with first parameter `"1"` then
arrives, the handler raises nothing and only appends a `Failed`
classification to the log; there is no call left for it to resolve, so
the response with `"1"` does not resolve the unlock call as a failure. -/
theorem c2_unlock_result_counterexample :
    (unlock sEx "L" true tsEx utEx).bind (fun r =>
      Except.ok (r.2, (handle_lock_message r.1 "L" frameL0Fail).2,
        ((handle_lock_message r.1 "L" frameL0Fail).1).classLog)) =
    Except.ok (true, (none : Option PyErr), [("L", "L0".toList, false)]) := by
  rfl

/-- **C2, amended**: `unlock` resolves at send time with the transport
result (`true` on a successful send), independent of any device response;
a later matching `L0` response with a nonempty parameter list is merely
classified in the server log — Success exactly when its first parameter
is `"0"`, Failed otherwise — raising nothing and resolving no call. -/
theorem c2_send_time_resolution (s : ServerState) (id : String) (imei ft ut : List Char)
    (k : Socket) (d i p0 : List Char) (ps : List (List Char))
    (hinfo : alookup s.lockInfo id = some imei)
    (hconn : alookup s.connectedLocks id = some k)
    (hk : k.sendOk = true) (hkc : k.closed = false)
    (hia : ∀ c ∈ imei, c.toNat < 128) (hfa : ∀ c ∈ ft, c.toNat < 128)
    (hua : ∀ c ∈ ut, c.toNat < 128)
    (hparse : parse_response d = (some i, some ("L0".toList), some (p0 :: ps)))
    (hi : i ≠ []) :
    ∃ b s', unlock s id true ft ut = .ok (s', true)
      ∧ s' = { s with sent := s.sent ++ [(id, b)] }
      ∧ handle_lock_message s' id d = (handled_state s' id i ("L0".toList) (p0 :: ps), none)
      ∧ (handled_state s' id i ("L0".toList) (p0 :: ps)).classLog =
          s'.classLog ++ [(id, "L0".toList, p0 == "0".toList)]
      ∧ (handled_state s' id i ("L0".toList) (p0 :: ps)).lockInfo = aset s'.lockInfo id i := by
  have hb := branch_result_L0 p0 ps
  have hb2 : (branch_result ("L0".toList) (p0 :: ps)).2 = none := by rw [hb]
  have hb1 : (branch_result ("L0".toList) (p0 :: ps)).1 = some (p0 == "0".toList) := by rw [hb]
  refine ⟨PREFIX_BYTES ++ frameWith CMD_HEADER imei ft ("L0".toList)
    ["0".toList, "1234".toList, ut], { s with sent := s.sent ++ [(id, _)] }, ?_, rfl, ?_, ?_, ?_⟩
  · rw [show unlock s id true ft ut = send_command s id (PREFIX_BYTES ++
        frameWith CMD_HEADER imei ft ("L0".toList) ["0".toList, "1234".toList, ut]) from
      unlock_eq s id imei ft ut true hinfo hia hfa hua]
    exact send_command_ok s id _ k hconn hk hkc
  · rw [handle_eq_of_parse _ id d i ("L0".toList) (p0 :: ps) hparse hi, hb2]
  · unfold handled_state
    rw [hb1]
  · exact handled_state_lockInfo _ id i ("L0".toList) (p0 :: ps)

/-- Witness for the amended C2: concrete server, concrete failing
response. -/
theorem c2_send_time_resolution_witness :
    ∃ b s', unlock sEx "L" true tsEx utEx = .ok (s', true)
      ∧ s' = { sEx with sent := sEx.sent ++ [("L", b)] }
      ∧ handle_lock_message s' "L" frameL0Fail =
          (handled_state s' "L" imeiEx ("L0".toList) ["1".toList], none)
      ∧ (handled_state s' "L" imeiEx ("L0".toList) ["1".toList]).classLog =
          s'.classLog ++ [("L", "L0".toList, "1".toList == "0".toList)]
      ∧ (handled_state s' "L" imeiEx ("L0".toList) ["1".toList]).lockInfo =
          aset s'.lockInfo "L" imeiEx :=
  c2_send_time_resolution sEx "L" imeiEx tsEx utEx sockEx frameL0Fail imeiEx
    ("1".toList) [] rfl rfl rfl rfl (by decide) (by decide) (by decide) (by decide)
    (by decide)

/-- **C3, counterexample**: the imei, once set, is *not* immune to change
while the connection stays open: `_handle_lock_message` overwrites
`lock_info[lock_id]` on every successfully decoded frame, so a second
frame carrying a different imei on the same connection replaces the
stored value (`AAA` becomes `BBB`). -/
theorem c3_imei_overwritten_counterexample :
    alookup ((handle_lock_message sNew "L" frameQ0A).1).lockInfo "L" = some ("AAA".toList)
    ∧ alookup ((handle_lock_message (handle_lock_message sNew "L" frameQ0A).1 "L"
        frameQ0B).1).lockInfo "L" = some ("BBB".toList)
    ∧ ("AAA".toList : List Char) ≠ "BBB".toList :=
  ⟨rfl, rfl, by decide⟩

/-- **C3, amended**: once an identity has an imei, no operation clears the
entry — every session step leaves it with *some* imei, and re-receiving
the same frame is idempotent on `lock_info` — but each successfully
decoded frame overwrites the record with that frame's imei, so the value
changes exactly when a frame reports a different imei. -/
theorem c3_imei_never_cleared (s : ServerState) (id : String) (i : List Char)
    (ev : RecvEvent) (d i' c : List Char) (p : List (List Char))
    (h : alookup s.lockInfo id = some i)
    (hparse : parse_response d = (some i', some c, some p)) (hne : i' ≠ []) :
    (alookup ((session_step s id ev).1).lockInfo id).isSome = true
    ∧ alookup ((handle_lock_message s id d).1).lockInfo id = some i'
    ∧ ((handle_lock_message (handle_lock_message s id d).1 id d).1).lockInfo
        = ((handle_lock_message s id d).1).lockInfo := by
  refine ⟨?_, ?_, ?_⟩
  · rcases session_step_lockInfo_cases s id ev with he | ⟨j, hj, he⟩
    · rw [he, h]; rfl
    · rw [he]
      exact alookup_aset_isSome _ id id j (by rw [h]; rfl)
  · rw [handle_lockInfo_of_parse s id d i' c p hparse hne]
    exact alookup_aset_self _ id i'
  · rw [handle_lockInfo_of_parse ((handle_lock_message s id d).1) id d i' c p hparse hne,
      handle_lockInfo_of_parse s id d i' c p hparse hne, aset_aset]

/-- Witness for the amended C3: identified lock, disconnect event, and a
`Q0` frame carrying imei `AAA`. -/
theorem c3_imei_never_cleared_witness :
    (alookup ((session_step sEx "L" RecvEvent.eof).1).lockInfo "L").isSome = true
    ∧ alookup ((handle_lock_message sEx "L" frameQ0A).1).lockInfo "L" = some ("AAA".toList)
    ∧ ((handle_lock_message (handle_lock_message sEx "L" frameQ0A).1 "L" frameQ0A).1).lockInfo
        = ((handle_lock_message sEx "L" frameQ0A).1).lockInfo :=
  c3_imei_never_cleared sEx "L" imeiEx RecvEvent.eof frameQ0A ("AAA".toList) ("Q0".toList) []
    rfl (by decide) (by decide)

/-- **C4, counterexample**: issuing a second command while the first is
still unanswered neither fails with a command-in-flight error (no such
error exists in the code) nor waits for the first to complete: both calls
return `.ok true` and both frames are written to the socket immediately
(two entries in the send log) while no response to the first command has
been processed (the classification log is still empty). -/
theorem c4_second_command_counterexample :
    (unlock sEx "L" true tsEx utEx).bind (fun r =>
      (lock r.1 "L" tsEx).map (fun q => (r.2, q.2, q.1.sent.length, q.1.classLog))) =
    Except.ok (true, true, 2, ([] : List (String × List Char × Bool))) := by
  rfl

/-- **C4, amended**: commands are fire-and-forget: with a connected,
identified lock, a second command issued while the first's response is
still outstanding is accepted and transmitted immediately on the same
socket, strictly in issue order, with no error and no waiting — the code
keeps no per-identity pending-command slot. -/
theorem c4_fire_and_forget (s : ServerState) (id : String) (imei ft ut : List Char)
    (k : Socket)
    (hinfo : alookup s.lockInfo id = some imei)
    (hconn : alookup s.connectedLocks id = some k)
    (hk : k.sendOk = true) (hkc : k.closed = false)
    (hia : ∀ c ∈ imei, c.toNat < 128) (hfa : ∀ c ∈ ft, c.toNat < 128)
    (hua : ∀ c ∈ ut, c.toNat < 128) :
    ∃ b1 b2 s1 s2,
      unlock s id true ft ut = .ok (s1, true)
      ∧ lock s1 id ft = .ok (s2, true)
      ∧ s1.sent = s.sent ++ [(id, b1)]
      ∧ s2.sent = s.sent ++ [(id, b1), (id, b2)]
      ∧ s2.classLog = s.classLog := by
  have hu : unlock s id true ft ut = send_command s id (PREFIX_BYTES ++
      frameWith CMD_HEADER imei ft ("L0".toList) ["0".toList, "1234".toList, ut]) :=
    unlock_eq s id imei ft ut true hinfo hia hfa hua
  have hl : ∀ s' : ServerState, s'.lockInfo = s.lockInfo →
      lock s' id ft = send_command s' id (PREFIX_BYTES ++
        frameWith CMD_HEADER imei ft ("L1".toList) []) :=
    fun s' hls => lock_eq s' id imei ft (by rw [hls]; exact hinfo) hia hfa
  generalize hb1 : PREFIX_BYTES ++
    frameWith CMD_HEADER imei ft ("L0".toList) ["0".toList, "1234".toList, ut] = b1 at hu
  generalize hb2 : PREFIX_BYTES ++ frameWith CMD_HEADER imei ft ("L1".toList) [] = b2 at hl
  refine ⟨b1, b2, { s with sent := s.sent ++ [(id, b1)] },
    { s with sent := s.sent ++ [(id, b1)] ++ [(id, b2)] }, ?_, ?_, rfl, ?_, rfl⟩
  · rw [hu]
    exact send_command_ok s id b1 k hconn hk hkc
  · rw [hl { s with sent := s.sent ++ [(id, b1)] } rfl]
    exact send_command_ok _ id b2 k hconn hk hkc
  · simp [List.append_assoc]

/-- Witness for the amended C4: both frames go out back-to-back on the
concrete identified lock. -/
theorem c4_fire_and_forget_witness :
    ∃ b1 b2 s1 s2,
      unlock sEx "L" true tsEx utEx = .ok (s1, true)
      ∧ lock s1 "L" tsEx = .ok (s2, true)
      ∧ s1.sent = sEx.sent ++ [("L", b1)]
      ∧ s2.sent = sEx.sent ++ [("L", b1), ("L", b2)]
      ∧ s2.classLog = sEx.classLog :=
  c4_fire_and_forget sEx "L" imeiEx tsEx utEx sockEx rfl rfl rfl rfl
    (by decide) (by decide) (by decide)

/-- **C6**: for an identity with no `lock_info` record (every record
stores an imei, so this is exactly "no known imei"), each of `unlock`,
`lock` and `get_status` raises the `"not recognized"` `ValueError`
immediately: the result is a bare error carrying no state change, so no
frame is built and no socket is touched. -/
theorem c6_unknown_lock_rejected (s : ServerState) (id : String) (rt : Bool)
    (ft ut : List Char) (h : alookup s.lockInfo id = none) :
    unlock s id rt ft ut = .error (.notRecognized id)
    ∧ lock s id ft = .error (.notRecognized id)
    ∧ get_status s id ft = .error (.notRecognized id) := by
  unfold unlock lock get_status
  rw [h]
  exact ⟨rfl, rfl, rfl⟩

/-- Witness for C6: a connected but never-identified lock. -/
theorem c6_unknown_lock_rejected_witness :
    unlock sNew "L" true tsEx utEx = .error (.notRecognized "L")
    ∧ lock sNew "L" tsEx = .error (.notRecognized "L")
    ∧ get_status sNew "L" tsEx = .error (.notRecognized "L") :=
  c6_unknown_lock_rejected sNew "L" true tsEx utEx rfl

/-- **C7, counterexample**: after the session for an identified lock
observes end-of-stream, the identity is gone from `connected_locks`, but
its `lock_info` record is *not* removed: the identity still resolves to
its imei, and a subsequent `unlock` passes the recognition check and
fails only at the send step with the `"is not connected"` error — not
with the unknown-lock error the claim's `NotFound` requires; nor does any
pending command get failed with `ConnectionLost`, since the code tracks
no pending commands at all. -/
theorem c7_registry_not_cleared_counterexample :
    alookup ((session_step sEx "L" RecvEvent.eof).1).connectedLocks "L" = none
    ∧ alookup ((session_step sEx "L" RecvEvent.eof).1).lockInfo "L" = some imeiEx
    ∧ unlock ((session_step sEx "L" RecvEvent.eof).1) "L" true tsEx utEx =
        .error (.notConnected "L") :=
  ⟨rfl, rfl, rfl⟩

/-- **C7, amended**: on a zero-length read or an I/O error the session
terminates, the socket close is idempotent (a second `close` changes
nothing and cannot raise), and the identity is removed from
`connected_locks`; the `lock_info` metadata survives unchanged, so a
later command still passes recognition and fails at the send step with
the `"is not connected"` error — there is no pending-command slot and
hence no `ConnectionLost` resolution. -/
theorem c7_disconnect_behavior (s : ServerState) (id : String) (imei ft ut : List Char)
    (rt : Bool) (ev : RecvEvent) (k : Socket)
    (himei : alookup s.lockInfo id = some imei)
    (hev : ev = RecvEvent.eof ∨ ev = RecvEvent.ioErr)
    (hia : ∀ c ∈ imei, c.toNat < 128) (hfa : ∀ c ∈ ft, c.toNat < 128)
    (hua : ∀ c ∈ ut, c.toNat < 128) :
    alookup ((session_step s id ev).1).connectedLocks id = none
    ∧ (session_step s id ev).2 = false
    ∧ ((session_step s id ev).1).lockInfo = s.lockInfo
    ∧ closeSock (closeSock k) = closeSock k
    ∧ unlock ((session_step s id ev).1) id rt ft ut = .error (.notConnected id) := by
  have hstep : (session_step s id ev).1 = disconnect_cleanup s id := by
    rcases hev with rfl | rfl <;> rfl
  have hcont : (session_step s id ev).2 = false := by
    rcases hev with rfl | rfl <;> rfl
  refine ⟨?_, hcont, ?_, rfl, ?_⟩
  · rw [hstep]
    exact alookup_aremove_self s.connectedLocks id
  · rw [hstep]
    rfl
  · rw [hstep]
    rw [unlock_eq (disconnect_cleanup s id) id imei ft ut rt himei hia hfa hua]
    exact send_command_not_connected _ id _ (alookup_aremove_self s.connectedLocks id)

/-- Witness for the amended C7 on the concrete identified lock. -/
theorem c7_disconnect_behavior_witness :
    alookup ((session_step sEx "L" RecvEvent.ioErr).1).connectedLocks "L" = none
    ∧ (session_step sEx "L" RecvEvent.ioErr).2 = false
    ∧ ((session_step sEx "L" RecvEvent.ioErr).1).lockInfo = sEx.lockInfo
    ∧ closeSock (closeSock sockEx) = closeSock sockEx
    ∧ unlock ((session_step sEx "L" RecvEvent.ioErr).1) "L" false tsEx utEx =
        .error (.notConnected "L") :=
  c7_disconnect_behavior sEx "L" imeiEx tsEx utEx false RecvEvent.ioErr sockEx rfl
    (Or.inr rfl) (by decide) (by decide) (by decide)

/-- **C8**: for an identified lock, `unlock` sends exactly the frame
`_format_command(imei, "L0", flag, "1234", ts)` — its fifth
comma-separated field (index 4) is the code `L0` and its sixth (index 5,
the first parameter) is `"0"` when `reset_time` is true and `"1"` when it
is false. -/
theorem c8_unlock_frame (s : ServerState) (id : String) (imei ft ut : List Char) (rt : Bool)
    (hinfo : alookup s.lockInfo id = some imei)
    (hi : validField imei) (hft : validField ft) (hut : validField ut) :
    unlock s id rt ft ut = send_command s id (PREFIX_BYTES ++
      frameWith CMD_HEADER imei ft ("L0".toList)
        [if rt then "0".toList else "1".toList, "1234".toList, ut])
    ∧ (fieldsOf (frameWith CMD_HEADER imei ft ("L0".toList)
        [if rt then "0".toList else "1".toList, "1234".toList, ut])).getD 4 [] = "L0".toList
    ∧ (fieldsOf (frameWith CMD_HEADER imei ft ("L0".toList)
        [if rt then "0".toList else "1".toList, "1234".toList, ut])).getD 5 [] =
      (if rt then "0".toList else "1".toList) := by
  have hfields : fieldsOf (frameWith CMD_HEADER imei ft ("L0".toList)
      [if rt then "0".toList else "1".toList, "1234".toList, ut]) =
      CMD_HEADER :: MANUFACTURER :: imei :: ft :: ("L0".toList) ::
        [if rt then "0".toList else "1".toList, "1234".toList, ut] := by
    refine fieldsOf_frameWith (Or.inl rfl) ⟨hi.1, hi.2.1⟩ ⟨hft.1, hft.2.1⟩
      (by decide) ?_ ?_
    · intro p hp'
      have hmem : p = (if rt then "0".toList else "1".toList) ∨ p = "1234".toList ∨ p = ut := by
        simpa using hp'
      rcases hmem with rfl | rfl | rfl
      · cases rt <;> decide
      · decide
      · exact ⟨hut.1, hut.2.1⟩
    · intro hh
      exact absurd (congrArg List.length hh) (by simp)
  refine ⟨unlock_eq s id imei ft ut rt hinfo hi.2.2 hft.2.2 hut.2.2, ?_, ?_⟩
  · rw [hfields]
    rfl
  · rw [hfields]
    rfl

/-- Witness for C8 with `reset_time = false` (the `"1"` flag). -/
theorem c8_unlock_frame_witness :
    unlock sEx "L" false tsEx utEx = send_command sEx "L" (PREFIX_BYTES ++
      frameWith CMD_HEADER imeiEx tsEx ("L0".toList)
        [if false then "0".toList else "1".toList, "1234".toList, utEx])
    ∧ (fieldsOf (frameWith CMD_HEADER imeiEx tsEx ("L0".toList)
        [if false then "0".toList else "1".toList, "1234".toList, utEx])).getD 4 [] =
      "L0".toList
    ∧ (fieldsOf (frameWith CMD_HEADER imeiEx tsEx ("L0".toList)
        [if false then "0".toList else "1".toList, "1234".toList, utEx])).getD 5 [] =
      (if false then "0".toList else "1".toList) :=
  c8_unlock_frame sEx "L" imeiEx tsEx utEx false rfl (by decide) (by decide) (by decide)

/-- **C10**: when a read loop terminates (for any reason: end-of-stream,
I/O error, or an exception escaping the handler), only the
`connected_locks` entry is removed; `lock_info` entries are never removed
— any identity known before a step is still known after it, and a pure
disconnect leaves `lock_info` exactly unchanged — so a command for a
disconnected identity whose imei was once learned passes the recognition
check and fails at the send step with the `"is not connected"` error. -/
theorem c10_lock_info_retained (s : ServerState) (id id' : String) (imei ft ut : List Char)
    (rt : Bool) (ev : RecvEvent)
    (himei : alookup s.lockInfo id = some imei)
    (hs : (alookup s.lockInfo id').isSome = true)
    (hia : ∀ c ∈ imei, c.toNat < 128) (hfa : ∀ c ∈ ft, c.toNat < 128)
    (hua : ∀ c ∈ ut, c.toNat < 128) :
    ((session_step s id ev).2 = false →
      alookup ((session_step s id ev).1).connectedLocks id = none)
    ∧ (alookup ((session_step s id ev).1).lockInfo id').isSome = true
    ∧ ((session_step s id RecvEvent.eof).1).lockInfo = s.lockInfo
    ∧ unlock ((session_step s id RecvEvent.eof).1) id rt ft ut =
        .error (.notConnected id) := by
  refine ⟨?_, ?_, rfl, ?_⟩
  · intro hterm
    cases ev with
    | eof => exact alookup_aremove_self s.connectedLocks id
    | ioErr => exact alookup_aremove_self s.connectedLocks id
    | recv d =>
      rcases hh : handle_lock_message s id d with ⟨s', e⟩
      cases e with
      | none =>
        simp only [session_step, hh] at hterm
        exact Bool.noConfusion hterm
      | some pe =>
        simp only [session_step, hh]
        exact alookup_aremove_self s'.connectedLocks id
  · rcases session_step_lockInfo_cases s id ev with he | ⟨j, hj, he⟩
    · rw [he]
      exact hs
    · rw [he]
      exact alookup_aset_isSome _ id id' j hs
  · rw [show ((session_step s id RecvEvent.eof).1) = disconnect_cleanup s id from rfl,
      unlock_eq (disconnect_cleanup s id) id imei ft ut rt himei hia hfa hua]
    exact send_command_not_connected _ id _ (alookup_aremove_self s.connectedLocks id)

/-- Witness for C10: a handler exception (`L0` with no parameters) ends
the loop; metadata survives and the next unlock fails as not-connected. -/
theorem c10_lock_info_retained_witness :
    ((session_step sEx "L" (RecvEvent.recv frameL0Empty)).2 = false →
      alookup ((session_step sEx "L" (RecvEvent.recv frameL0Empty)).1).connectedLocks "L" =
        none)
    ∧ (alookup ((session_step sEx "L" (RecvEvent.recv frameL0Empty)).1).lockInfo "L").isSome =
        true
    ∧ ((session_step sEx "L" RecvEvent.eof).1).lockInfo = sEx.lockInfo
    ∧ unlock ((session_step sEx "L" RecvEvent.eof).1) "L" true tsEx utEx =
        .error (.notConnected "L") :=
  c10_lock_info_retained sEx "L" "L" imeiEx tsEx utEx true (RecvEvent.recv frameL0Empty)
    rfl rfl (by decide) (by decide) (by decide)
